import Mathlib

/-!
Verification of `antony66/go-sshwrapper` (`sshwrapper.go`) against its
natural-language specification.

The single source file defines:
  * `ParseAddr` — a pure parser for `[user@]host[:port]` strings;
  * `Dial` — opens an agent socket, retrieves signers, parses the address,
    dials the SSH transport and optionally sets up agent forwarding, with
    defer-based cleanup on every failure path;
  * `SSHConn.Close`, `SetEnvs`, `requestAgentForwarding`;
  * `Output` / `CombinedOutput` / `Run` — per-command channel lifecycle.

The pure parser is embedded directly.  The effectful functions are embedded
as state-passing functions over an oracle ("world") recording the outcomes
the external collaborators (the `net`, `golang.org/x/crypto/ssh` and
`.../ssh/agent` packages) would produce, and each returns its result
together with a trace of resource events (opens, closes, setenv calls,
forwarding requests, command runs) so that resource-lifecycle claims can be
stated about the trace.
-/

namespace Sshwrapper

/-- Mirror of Go `strings.Split(s, sep)` for a one-character separator,
working on the character list of the string.  `strings.Split("", sep)`
returns `[""]`, and separators at the ends produce empty fields, exactly as
in Go. -/
def splitOnChar (sep : Char) : List Char → List (List Char)
  | [] => [[]]
  | c :: cs =>
    let rest := splitOnChar sep cs
    if c = sep then [] :: rest
    else
      match rest with
      | r :: rs => (c :: r) :: rs
      | [] => [[c]]

/-- Value of a nonempty list of decimal digits; `none` if the list is empty
or contains a non-digit, as in Go `strconv.ParseInt` base 10. -/
def digitsVal : List Char → Option Nat
  | [] => none
  | cs => go cs 0
where
  go : List Char → Nat → Option Nat
    | [], acc => some acc
    | c :: cs, acc =>
      if c.isDigit then go cs (acc * 10 + (c.toNat - '0'.toNat))
      else none

/-- Mirror of Go `strconv.Atoi`: optional leading `+`/`-`, then one or more
decimal digits; the value must fit in a signed 64-bit `int`.  Returns
`none` exactly when Go returns a non-nil error. -/
def go_Atoi (cs : List Char) : Option Int :=
  let (neg, ds) :=
    match cs with
    | '+' :: rest => (false, rest)
    | '-' :: rest => (true, rest)
    | _ => (false, cs)
  match digitsVal ds with
  | none => none
  | some n =>
    let v : Int := if neg then -(n : Int) else (n : Int)
    if v < -(2 ^ 63) ∨ 2 ^ 63 - 1 < v then none else some v

/-- The second `switch` of `ParseAddr` (sshwrapper.go:203-218): split the
remainder on `:`.  No colon: the whole remainder is the host with the
current `port` default; one colon with a nonempty, `Atoi`-parseable
suffix: host/port pair; empty suffix, multiple colons, or a non-integer
port: error. -/
def parseHostPort (s : List Char) (port : Int) (user : List Char) :
    Option (List Char × Int × List Char) :=
  match splitOnChar ':' s with
  | [h] => some (h, port, user)
  | [h, p] =>
    if p.length = 0 then none
    else
      match go_Atoi p with
      | none => none
      | some d => some (h, d, user)
  | _ => none

/-- Embedding of `ParseAddr` (sshwrapper.go:186-221) on character lists.
The defaults are port 22 and user `"root"` (lines 187-188).  Split on `@`
(zero `@`: keep the default user; one `@` with nonempty suffix: explicit
user; otherwise error), then split the remainder on `:` via
`parseHostPort`.  `none` models a non-nil Go error. -/
def parseAddrCore (s : List Char) : Option (List Char × Int × List Char) :=
  match splitOnChar '@' s with
  | [x] => parseHostPort x 22 ['r', 'o', 'o', 't']
  | [u, rest] =>
    if rest.length = 0 then none
    else parseHostPort rest 22 u
  | _ => none

/-- Top-level `ParseAddr` on `String`s: `some (host, port, user)` models
the Go return `(host, port, user, nil)`; `none` models a non-nil error (in
which case Go returns the zero triple `("", 0, "")` alongside the error,
never mistaken for success). -/
def ParseAddr (s : String) : Option (String × Int × String) :=
  match parseAddrCore s.data with
  | none => none
  | some (h, p, u) => some (String.mk h, p, String.mk u)

/-! ## Effectful part: Dial, Close, command execution

External collaborator calls are modelled by oracles (`DialWorld`,
`ExecWorld`) giving the success/failure of each call, and every function
returns a trace of resource events alongside its result. -/

/-- Resource / collaborator events emitted while executing the wrapper's
operations.  `agentOpen`/`agentClose` are the local agent socket
(`net.Dial("unix", …)` / `agentConn.Close()`), `clientOpen`/`clientClose`
the SSH transport (`ssh.Dial` / `client.Close()`), `chanOpen`/`chanClose`
a per-command channel (`client.NewSession()` / `session.Close()`). -/
inductive Ev
  | agentOpen
  | agentClose
  | signersCall
  | parseAddrCall
  | clientOpen
  | clientClose
  | forwardSetup
  | forwardReq
  | chanOpen
  | chanClose
  | setenv (k v : String)
  | runCmd (c : String)
deriving DecidableEq, Repr

/-- The `SSHConn` struct (sshwrapper.go:19-24).  `envs` is the environment
map; Go iterates a map in unspecified order, embedded here as an
association list iterated in list order.  `clientClosed` / `agentClosed`
track whether `Close` has released the underlying handles, so that the
transport collaborator's behaviour on a closed client can be expressed. -/
structure SSHConn where
  clientClosed : Bool
  agentClosed : Bool
  forwardAgent : Bool
  envs : List (String × String)
deriving DecidableEq, Repr

/-- Oracle for the collaborator calls made by `Dial`: whether
`net.Dial("unix", socket)`, `sshAgent.Signers()`, `ssh.Dial` and
`agent.ForwardToAgent` succeed. -/
structure DialWorld where
  agentDialOk : Bool
  signersOk : Bool
  sshDialOk : Bool
  forwardOk : Bool
deriving DecidableEq, Repr

/-- Embedding of `Dial` (sshwrapper.go:33-87).  Mirrors the source order:
open the agent socket, retrieve signers, parse the address, dial the
transport, optionally set up forwarding.  The two `defer`s (close the
agent socket unless `agentOk`, close the client unless `clientOk`) run in
LIFO order at each `return`, so each returned trace ends with the deferred
closes for that path. -/
def Dial (addr : String) (forwardAgent : Bool) (w : DialWorld) :
    Option SSHConn × List Ev :=
  if !w.agentDialOk then
    -- net.Dial failed: nothing was opened (line 36)
    (none, [])
  else if !w.signersOk then
    -- Signers() failed: deferred close of the agent socket (line 48)
    (none, [.agentOpen, .signersCall, .agentClose])
  else
    match parseAddrCore addr.data with
    | none =>
      -- ParseAddr failed: deferred close of the agent socket (line 53)
      (none, [.agentOpen, .signersCall, .parseAddrCall, .agentClose])
    | some _ =>
      if !w.sshDialOk then
        -- ssh.Dial failed: deferred close of the agent socket (line 63)
        (none, [.agentOpen, .signersCall, .parseAddrCall, .agentClose])
      else if forwardAgent && !w.forwardOk then
        -- ForwardToAgent failed: deferred closes of client then agent (line 74)
        (none, [.agentOpen, .signersCall, .parseAddrCall, .clientOpen,
                .forwardSetup, .clientClose, .agentClose])
      else
        -- success: agentOk and clientOk are set, no deferred close fires
        (some ⟨false, false, forwardAgent, []⟩,
         [.agentOpen, .signersCall, .parseAddrCall, .clientOpen] ++
           (if forwardAgent then [.forwardSetup] else []))

/-- Embedding of `SSHConn.Close` (sshwrapper.go:90-93): closes the agent
socket, then the transport. -/
def SSHConn.Close (s : SSHConn) : SSHConn × List Ev :=
  ({ s with agentClosed := true, clientClosed := true },
   [.agentClose, .clientClose])

/-- Embedding of `SSHConn.SetEnvs` (sshwrapper.go:180-182): replaces the
environment map wholesale. -/
def SSHConn.SetEnvs (s : SSHConn) (e : List (String × String)) : SSHConn :=
  { s with envs := e }

/-- Oracle for the collaborator calls made during one command execution:
whether `client.NewSession()` succeeds, whether
`agent.RequestAgentForwarding` succeeds, which environment keys
`session.Setenv` accepts, and whether the remote command itself succeeds. -/
structure ExecWorld where
  newSessionOk : Bool
  forwardReqOk : Bool
  setenvOk : String → Bool
  runOk : Bool

/-- Result of one command execution, distinguishing the failing phase as
the source's distinct error returns do. -/
inductive ExecResult
  | ok
  | chanFail
  | forwardFail
  | envFail (k : String)
  | runFail
deriving DecidableEq, Repr

/-- Channel opening, `client.NewSession()`, as mediated by the transport
collaborator.  On a transport that has been closed,
`golang.org/x/crypto/ssh` returns an error from `NewSession` (the spec
requires this collaborator contract: operations after close must fail, not
crash); on an open transport the oracle decides. -/
def newSession (s : SSHConn) (w : ExecWorld) : Bool × List Ev :=
  if s.clientClosed then (false, [])
  else if w.newSessionOk then (true, [.chanOpen])
  else (false, [])

/-- Embedding of `requestAgentForwarding` (sshwrapper.go:95-103): an
immediate success without contacting the agent collaborator when
`forwardAgent` is false, otherwise a per-channel request whose outcome the
oracle decides. -/
def SSHConn.requestAgentForwarding (s : SSHConn) (w : ExecWorld) :
    Bool × List Ev :=
  if !s.forwardAgent then (true, [])
  else if w.forwardReqOk then (true, [.forwardReq])
  else (false, [.forwardReq])

/-- The `for k, v := range s.envs { session.Setenv(k, v) }` loop shared by
the three execution modes: applies each pair in turn, stopping at (and
reporting) the first key `Setenv` rejects.  The event for the failing call
is still emitted (the call was made and returned an error). -/
def setenvLoop (w : ExecWorld) : List (String × String) → Option String × List Ev
  | [] => (none, [])
  | (k, v) :: rest =>
    if w.setenvOk k then
      ((setenvLoop w rest).1, .setenv k v :: (setenvLoop w rest).2)
    else (some k, [.setenv k v])

/-- Embedding of `Output` (sshwrapper.go:106-126): open a channel, `defer
session.Close()`, request forwarding, apply the environment, run the
command capturing stdout.  Every trace of a path on which the channel
opened ends with the deferred `chanClose`. -/
def SSHConn.Output (s : SSHConn) (cmd : String) (w : ExecWorld) :
    ExecResult × List Ev :=
  match newSession s w with
  | (false, tr) => (.chanFail, tr)
  | (true, tr0) =>
    match s.requestAgentForwarding w with
    | (false, tr1) => (.forwardFail, tr0 ++ tr1 ++ [.chanClose])
    | (true, tr1) =>
      match setenvLoop w s.envs with
      | (some k, tr2) => (.envFail k, tr0 ++ tr1 ++ tr2 ++ [.chanClose])
      | (none, tr2) =>
        ((if w.runOk then .ok else .runFail),
         tr0 ++ tr1 ++ tr2 ++ [.runCmd cmd, .chanClose])

/-- Embedding of `CombinedOutput` (sshwrapper.go:129-149): same skeleton as
`Output`, capturing interleaved stdout and stderr. -/
def SSHConn.CombinedOutput (s : SSHConn) (cmd : String) (w : ExecWorld) :
    ExecResult × List Ev :=
  match newSession s w with
  | (false, tr) => (.chanFail, tr)
  | (true, tr0) =>
    match s.requestAgentForwarding w with
    | (false, tr1) => (.forwardFail, tr0 ++ tr1 ++ [.chanClose])
    | (true, tr1) =>
      match setenvLoop w s.envs with
      | (some k, tr2) => (.envFail k, tr0 ++ tr1 ++ tr2 ++ [.chanClose])
      | (none, tr2) =>
        ((if w.runOk then .ok else .runFail),
         tr0 ++ tr1 ++ tr2 ++ [.runCmd cmd, .chanClose])

/-- Embedding of `Run` (sshwrapper.go:154-176): same skeleton, streaming
stdout and stderr to caller-supplied sinks. -/
def SSHConn.Run (s : SSHConn) (cmd : String) (w : ExecWorld) :
    ExecResult × List Ev :=
  match newSession s w with
  | (false, tr) => (.chanFail, tr)
  | (true, tr0) =>
    match s.requestAgentForwarding w with
    | (false, tr1) => (.forwardFail, tr0 ++ tr1 ++ [.chanClose])
    | (true, tr1) =>
      match setenvLoop w s.envs with
      | (some k, tr2) => (.envFail k, tr0 ++ tr1 ++ tr2 ++ [.chanClose])
      | (none, tr2) =>
        ((if w.runOk then .ok else .runFail),
         tr0 ++ tr1 ++ tr2 ++ [.runCmd cmd, .chanClose])

/-- One of the three execution modes, for stating properties quantified
over "any number of Output/CombinedOutput/Run executions". -/
inductive Mode
  | output
  | combined
  | run
deriving DecidableEq, Repr

/-- Dispatch a mode to the corresponding execution function. -/
def execOf : Mode → SSHConn → String → ExecWorld → ExecResult × List Ev
  | .output, s, c, w => s.Output c w
  | .combined, s, c, w => s.CombinedOutput c w
  | .run, s, c, w => s.Run c w

/-- Concatenated event trace of a sequence of command executions against
one session (command executions do not mutate the session). -/
def runScript (s : SSHConn) : List (Mode × String × ExecWorld) → List Ev
  | [] => []
  | (m, c, w) :: rest => (execOf m s c w).2 ++ runScript s rest

/-! ## Helper lemmas about the parser -/

/-- Splitting a list that does not contain the separator yields the whole
list as the single field. -/
theorem splitOnChar_of_not_mem (sep : Char) (l : List Char) (h : sep ∉ l) :
    splitOnChar sep l = [l] := by
  induction l with
  | nil => rfl
  | cons c cs ih =>
    rw [List.mem_cons, not_or] at h
    have hc : ¬ c = sep := fun e => h.1 e.symm
    simp [splitOnChar, hc, ih h.2]

/-- Splitting at the first separator occurrence peels off the leading
field. -/
theorem splitOnChar_append (sep : Char) (l1 l2 : List Char) (h : sep ∉ l1) :
    splitOnChar sep (l1 ++ sep :: l2) = l1 :: splitOnChar sep l2 := by
  induction l1 with
  | nil => simp [splitOnChar]
  | cons c cs ih =>
    rw [List.mem_cons, not_or] at h
    have hc : ¬ c = sep := fun e => h.1 e.symm
    simp [splitOnChar, hc, ih h.2]

/-- `Atoi` rejects the empty string. -/
theorem go_Atoi_nil : go_Atoi [] = none := rfl

/-- A successfully parsed port string is nonempty. -/
theorem go_Atoi_ne_nil {p : List Char} {d : Int} (h : go_Atoi p = some d) :
    p ≠ [] := by
  intro e
  rw [e, go_Atoi_nil] at h
  exact Option.noConfusion h

/-- `ParseAddr` errors exactly when the core parser errors. -/
theorem parseAddr_none_iff (s : String) :
    ParseAddr s = none ↔ parseAddrCore s.data = none := by
  unfold ParseAddr
  cases parseAddrCore s.data with
  | none => simp
  | some r => obtain ⟨h, p, u⟩ := r; simp

/-- A successful `parseHostPort` returns the supplied user, and its port
is the supplied default when its input has no colon, or exactly what
`go_Atoi` produced from the text after its input's colon; no further
validation happens. -/
theorem parseHostPort_eq (x : List Char) (df : Int) (us : List Char)
    (hl : List Char) (pt : Int) (ul : List Char)
    (he : parseHostPort x df us = some (hl, pt, ul)) :
    ul = us ∧
    (splitOnChar ':' x = [hl] ∧ pt = df ∨
     ∃ ptext, splitOnChar ':' x = [hl, ptext] ∧ go_Atoi ptext = some pt) := by
  unfold parseHostPort at he
  rcases hsp : splitOnChar ':' x with _ | ⟨h1, _ | ⟨p1, _ | ⟨c, more⟩⟩⟩ <;>
    rw [hsp] at he
  · exact Option.noConfusion he
  · have he2 : some (h1, df, us) = some (hl, pt, ul) := he
    injection he2 with he'
    injection he' with h1e h2
    injection h2 with h3 h4
    subst h1e h3 h4
    exact ⟨rfl, Or.inl ⟨rfl, rfl⟩⟩
  · have he2 : (if p1.length = 0 then none
        else match go_Atoi p1 with
          | none => none
          | some d => some (h1, d, us)) = some (hl, pt, ul) := he
    by_cases hl0 : p1.length = 0
    · rw [if_pos hl0] at he2
      exact Option.noConfusion he2
    · rw [if_neg hl0] at he2
      rcases hA : go_Atoi p1 with _ | d <;> rw [hA] at he2
      · exact Option.noConfusion he2
      · injection he2 with he'
        injection he' with h1e h2
        injection h2 with h3 h4
        subst h1e h3 h4
        exact ⟨rfl, Or.inr ⟨p1, rfl, hA⟩⟩
  · exact Option.noConfusion he

/-- A successful `parseAddrCore` took its user from the text before the
`@` of its input (or the default), and its port from the text after the
colon of its input (or the default 22). -/
theorem parseAddrCore_spec (sd : List Char) (hl : List Char) (pt : Int)
    (ul : List Char) (he : parseAddrCore sd = some (hl, pt, ul)) :
    ∃ rest,
      (splitOnChar '@' sd = [rest] ∧ ul = ['r', 'o', 'o', 't'] ∨
       splitOnChar '@' sd = [ul, rest]) ∧
      (splitOnChar ':' rest = [hl] ∧ pt = 22 ∨
       ∃ ptext, splitOnChar ':' rest = [hl, ptext] ∧ go_Atoi ptext = some pt) := by
  unfold parseAddrCore at he
  rcases hsp : splitOnChar '@' sd with _ | ⟨x, _ | ⟨rest, _ | ⟨c, more⟩⟩⟩ <;>
    rw [hsp] at he
  · exact Option.noConfusion he
  · have he2 : parseHostPort x 22 ['r', 'o', 'o', 't'] = some (hl, pt, ul) := he
    obtain ⟨hu, hrest⟩ := parseHostPort_eq x 22 _ hl pt ul he2
    exact ⟨x, Or.inl ⟨rfl, hu⟩, hrest⟩
  · have he2 : (if rest.length = 0 then none else parseHostPort rest 22 x) =
        some (hl, pt, ul) := he
    by_cases hl0 : rest.length = 0
    · rw [if_pos hl0] at he2
      exact Option.noConfusion he2
    · rw [if_neg hl0] at he2
      obtain ⟨hu, hrest⟩ := parseHostPort_eq rest 22 x hl pt ul he2
      exact ⟨rest, Or.inr (by rw [hu]), hrest⟩
  · exact Option.noConfusion he

/-! ## Claims about `ParseAddr` -/

/-- C10: `ParseAddr ""` succeeds with host `""`, port 22, user `"root"`:
an empty host field is not rejected at the public parsing interface. -/
theorem parseAddr_empty_string_succeeds :
    ParseAddr "" = some ("", 22, "root") := by decide

/-- C3 counterexample: `"@host"` is listed as malformed, but `ParseAddr`
accepts it, returning host `"host"`, port 22 and an *empty* user: the
code never checks that the part before `@` is nonempty. -/
theorem parseAddr_at_host_accepted :
    ParseAddr "@host" = some ("host", 22, "") := by decide

/-- C3 (amended): the five inputs `"user@"`, `"a@b@c"`, `"host:"`,
`"host:abc"`, `"host:1:2"` are all rejected with an error (no triple is
returned as success), but `"@host"` is accepted with an empty user. -/
theorem parseAddr_malformed_inputs :
    ParseAddr "user@" = none ∧
    ParseAddr "a@b@c" = none ∧
    ParseAddr "host:" = none ∧
    ParseAddr "host:abc" = none ∧
    ParseAddr "host:1:2" = none ∧
    ParseAddr "@host" = some ("host", 22, "") := by decide

/-- C4: for every valid input of the four shapes `user@host:port`,
`host:port`, `user@host`, `host` (nonempty user and host, the host free of
`@` and `:`, the user free of `@`, the port `Atoi`-parseable), `ParseAddr`
succeeds with exactly the written fields, defaulting the port to 22 and
the user to `"root"` when omitted; in particular on
`"root@example.com:2222"` and `"example.com"`. -/
theorem parseAddr_valid_shapes
    (u h p : List Char) (d : Int)
    (_hu : u ≠ []) (hh : h ≠ [])
    (hua : '@' ∉ u) (hha : '@' ∉ h) (hhc : ':' ∉ h)
    (hpa : '@' ∉ p) (hpc : ':' ∉ p)
    (hd : go_Atoi p = some d) :
    ParseAddr (String.mk (u ++ ('@' :: (h ++ (':' :: p))))) =
      some (String.mk h, d, String.mk u) ∧
    ParseAddr (String.mk (h ++ (':' :: p))) = some (String.mk h, d, "root") ∧
    ParseAddr (String.mk (u ++ ('@' :: h))) = some (String.mk h, 22, String.mk u) ∧
    ParseAddr (String.mk h) = some (String.mk h, 22, "root") ∧
    ParseAddr "root@example.com:2222" = some ("example.com", 2222, "root") ∧
    ParseAddr "example.com" = some ("example.com", 22, "root") := by
  have hp_ne : p ≠ [] := go_Atoi_ne_nil hd
  have hlenp : ¬ p.length = 0 := by simpa using hp_ne
  have hrest : ('@' : Char) ∉ h ++ (':' :: p) := by
    intro hm
    rcases List.mem_append.mp hm with hm | hm
    · exact hha hm
    · rcases List.mem_cons.mp hm with e | hm
      · exact absurd e (by decide)
      · exact hpa hm
  have hsplitHP : splitOnChar ':' (h ++ (':' :: p)) = [h, p] := by
    rw [splitOnChar_append ':' h p hhc, splitOnChar_of_not_mem ':' p hpc]
  have hHP : parseHostPort (h ++ (':' :: p)) 22 u = some (h, d, u) := by
    unfold parseHostPort
    rw [hsplitHP]
    simp [hlenp, hd]
  have hHProot :
      parseHostPort (h ++ (':' :: p)) 22 ['r', 'o', 'o', 't'] =
        some (h, d, ['r', 'o', 'o', 't']) := by
    unfold parseHostPort
    rw [hsplitHP]
    simp [hlenp, hd]
  have hHonly : ∀ us, parseHostPort h 22 us = some (h, 22, us) := by
    intro us
    unfold parseHostPort
    rw [splitOnChar_of_not_mem ':' h hhc]
  refine ⟨?_, ?_, ?_, ?_, by decide, by decide⟩
  · show (match parseAddrCore (u ++ ('@' :: (h ++ (':' :: p)))) with
      | none => none
      | some (h, p, u) => some (String.mk h, p, String.mk u)) = _
    unfold parseAddrCore
    rw [splitOnChar_append '@' u _ hua, splitOnChar_of_not_mem '@' _ hrest]
    simp [hHP]
  · show (match parseAddrCore (h ++ (':' :: p)) with
      | none => none
      | some (h, p, u) => some (String.mk h, p, String.mk u)) = _
    unfold parseAddrCore
    rw [splitOnChar_of_not_mem '@' _ hrest]
    simp [hHProot]
  · show (match parseAddrCore (u ++ ('@' :: h)) with
      | none => none
      | some (h, p, u) => some (String.mk h, p, String.mk u)) = _
    unfold parseAddrCore
    rw [splitOnChar_append '@' u h hua, splitOnChar_of_not_mem '@' h hha]
    simp [hHonly, hh]
  · show (match parseAddrCore h with
      | none => none
      | some (h, p, u) => some (String.mk h, p, String.mk u)) = _
    unfold parseAddrCore
    rw [splitOnChar_of_not_mem '@' h hha]
    simp [hHonly]

/-- C4 witness: the four shapes instantiated at user `"u"`, host `"h"`,
port `"7"`. -/
theorem parseAddr_valid_shapes_witness :
    ['u'] ≠ ([] : List Char) ∧ go_Atoi ['7'] = some 7 ∧
    (ParseAddr (String.mk (['u'] ++ ('@' :: (['h'] ++ (':' :: ['7']))))) =
      some (String.mk ['h'], 7, String.mk ['u']) ∧
    ParseAddr (String.mk (['h'] ++ (':' :: ['7']))) =
      some (String.mk ['h'], 7, "root") ∧
    ParseAddr (String.mk (['u'] ++ ('@' :: ['h']))) =
      some (String.mk ['h'], 22, String.mk ['u']) ∧
    ParseAddr (String.mk ['h']) = some (String.mk ['h'], 22, "root") ∧
    ParseAddr "root@example.com:2222" = some ("example.com", 2222, "root") ∧
    ParseAddr "example.com" = some ("example.com", 22, "root")) :=
  ⟨by decide, by decide,
   parseAddr_valid_shapes ['u'] ['h'] ['7'] 7 (by decide) (by decide)
     (by decide) (by decide) (by decide) (by decide) (by decide) (by decide)⟩

/-- C5 counterexample: `ParseAddr "h:0"` succeeds with port 0, which is
outside the range 1-65535 the claim asserts for every successful parse. -/
theorem parseAddr_port_zero_accepted :
    ParseAddr "h:0" = some ("h", 0, "root") ∧
    ¬ (1 ≤ (0 : Int) ∧ (0 : Int) ≤ 65535) := by decide

/-- C5 (amended): on every input where `ParseAddr` succeeds, the returned
port is either the default 22 (when the remainder of that input after the
optional `user@` prefix has no colon) or exactly the integer `Atoi`
produced from the text after the colon of that input; and conversely
every `Atoi`-parseable port value — including 0, negative values and
values above 65535 — is accepted, because the code performs no 1-65535
range check. -/
theorem parseAddr_port_unvalidated :
    (∀ (s : String) (h : String) (pt : Int) (u : String),
      ParseAddr s = some (h, pt, u) →
      ∃ rest,
        (splitOnChar '@' s.data = [rest] ∧ u = "root" ∨
         splitOnChar '@' s.data = [u.data, rest]) ∧
        (splitOnChar ':' rest = [h.data] ∧ pt = 22 ∨
         ∃ ptext, splitOnChar ':' rest = [h.data, ptext] ∧
           go_Atoi ptext = some pt)) ∧
    (∀ (hl pl : List Char) (d : Int),
      '@' ∉ hl → ':' ∉ hl → '@' ∉ pl → ':' ∉ pl → go_Atoi pl = some d →
      ParseAddr (String.mk (hl ++ (':' :: pl))) =
        some (String.mk hl, d, "root")) := by
  constructor
  · intro s h pt u he
    unfold ParseAddr at he
    rcases hc : parseAddrCore s.data with _ | ⟨hl, pt', ul⟩
    · rw [hc] at he
      exact Option.noConfusion he
    · rw [hc] at he
      injection he with he'
      injection he' with h1 h2
      injection h2 with h3 h4
      subst h1 h3 h4
      obtain ⟨rest, hsh, hport⟩ := parseAddrCore_spec s.data hl pt' ul hc
      refine ⟨rest, ?_, hport⟩
      rcases hsh with ⟨ha, hb⟩ | ha
      · exact Or.inl ⟨ha, by rw [hb]⟩
      · exact Or.inr ha
  · intro hl pl d hha hhc hpa hpc hd
    have hp_ne : pl ≠ [] := go_Atoi_ne_nil hd
    have hlenp : ¬ pl.length = 0 := by simpa using hp_ne
    have hrest : ('@' : Char) ∉ hl ++ (':' :: pl) := by
      intro hm
      rcases List.mem_append.mp hm with hm | hm
      · exact hha hm
      · rcases List.mem_cons.mp hm with e | hm
        · exact absurd e (by decide)
        · exact hpa hm
    have hHP : parseHostPort (hl ++ (':' :: pl)) 22 ['r', 'o', 'o', 't'] =
        some (hl, d, ['r', 'o', 'o', 't']) := by
      unfold parseHostPort
      rw [splitOnChar_append ':' hl pl hhc, splitOnChar_of_not_mem ':' pl hpc]
      simp [hlenp, hd]
    show (match parseAddrCore (hl ++ (':' :: pl)) with
      | none => none
      | some (h, p, u) => some (String.mk h, p, String.mk u)) = _
    unfold parseAddrCore
    rw [splitOnChar_of_not_mem '@' _ hrest]
    simp [hHP]

/-- C5 witness: the amended theorem applied at `"h:0"`, whose successful
parse returns port 0 — taken verbatim from the text after the colon and
outside 1-65535 — in both directions. -/
theorem parseAddr_port_unvalidated_witness :
    ParseAddr "h:0" = some ("h", 0, "root") ∧
    (∃ rest,
      (splitOnChar '@' "h:0".data = [rest] ∧ "root" = "root" ∨
       splitOnChar '@' "h:0".data = ["root".data, rest]) ∧
      (splitOnChar ':' rest = ["h".data] ∧ (0 : Int) = 22 ∨
       ∃ ptext, splitOnChar ':' rest = ["h".data, ptext] ∧
         go_Atoi ptext = some (0 : Int))) ∧
    ParseAddr (String.mk (['h'] ++ (':' :: ['0']))) =
      some (String.mk ['h'], 0, "root") :=
  ⟨by decide,
   parseAddr_port_unvalidated.1 "h:0" "h" 0 "root" (by decide),
   parseAddr_port_unvalidated.2 ['h'] ['0'] 0 (by decide) (by decide)
     (by decide) (by decide) (by decide)⟩

/-! ## Claims about `Dial` -/

/-- C1: every `Dial` has exactly one of two observable outcomes: it
succeeds, returning an `SSHConn` owning an open transport and an open
agent socket (one open of each in the trace, no close), or it fails with
no resource left held (every agent-socket and transport open in the trace
is matched by a close) — in particular the signer-retrieval,
address-parse and transport-dial failure paths close the already-opened
agent socket, and the forwarding-setup failure path closes both. -/
theorem dial_all_or_nothing (addr : String) (fa : Bool) (w : DialWorld) :
    (∃ conn tr, Dial addr fa w = (some conn, tr) ∧
      conn.clientClosed = false ∧ conn.agentClosed = false ∧
      tr.count Ev.agentOpen = 1 ∧ tr.count Ev.agentClose = 0 ∧
      tr.count Ev.clientOpen = 1 ∧ tr.count Ev.clientClose = 0) ∨
    (∃ tr, Dial addr fa w = (none, tr) ∧
      tr.count Ev.agentOpen = tr.count Ev.agentClose ∧
      tr.count Ev.clientOpen = tr.count Ev.clientClose) := by
  rcases w with ⟨a, sg, d, f⟩
  cases a with
  | false => exact Or.inr ⟨[], by simp [Dial], by decide⟩
  | true =>
    cases sg with
    | false =>
      exact Or.inr ⟨[.agentOpen, .signersCall, .agentClose],
        by simp [Dial], by decide⟩
    | true =>
      rcases hp : parseAddrCore addr.data with _ | r
      · exact Or.inr ⟨[.agentOpen, .signersCall, .parseAddrCall, .agentClose],
          by simp [Dial, hp], by decide⟩
      · cases d with
        | false =>
          exact Or.inr ⟨[.agentOpen, .signersCall, .parseAddrCall, .agentClose],
            by simp [Dial, hp], by decide⟩
        | true =>
          cases fa with
          | false =>
            exact Or.inl ⟨⟨false, false, false, []⟩,
              [.agentOpen, .signersCall, .parseAddrCall, .clientOpen],
              by simp [Dial, hp], rfl, rfl, by decide⟩
          | true =>
            cases f with
            | false =>
              exact Or.inr ⟨[.agentOpen, .signersCall, .parseAddrCall,
                  .clientOpen, .forwardSetup, .clientClose, .agentClose],
                by simp [Dial, hp], by decide⟩
            | true =>
              exact Or.inl ⟨⟨false, false, true, []⟩,
                [.agentOpen, .signersCall, .parseAddrCall, .clientOpen,
                 .forwardSetup],
                by simp [Dial, hp], rfl, rfl, by decide⟩

/-- C9 counterexample: with every collaborator call succeeding, `Dial` on
the malformed address `"a@b@c"` fails, yet its trace opens the agent
socket first and only then parses the address — the claimed
"parse before agent-socket open, hence no open on a malformed address"
does not hold. -/
theorem dial_malformed_addr_opens_agent :
    ParseAddr "a@b@c" = none ∧
    Dial "a@b@c" false ⟨true, true, true, true⟩ =
      (none, [Ev.agentOpen, Ev.signersCall, Ev.parseAddrCall, Ev.agentClose]) ∧
    (Dial "a@b@c" false ⟨true, true, true, true⟩).2.count Ev.agentOpen = 1 := by
  decide

/-- C9 (amended): `Dial` opens the agent socket and retrieves signers
*before* parsing the address; a `Dial` with a malformed address therefore
does open the agent socket, but the deferred cleanup closes it again
before the error is returned, so nothing is leaked. -/
theorem dial_parses_after_agent_open (addr : String) (fa : Bool)
    (w : DialWorld) (ha : w.agentDialOk = true) (hs : w.signersOk = true)
    (hp : ParseAddr addr = none) :
    Dial addr fa w =
      (none, [Ev.agentOpen, Ev.signersCall, Ev.parseAddrCall, Ev.agentClose]) := by
  rcases w with ⟨a, sg, d, f⟩
  cases ha
  cases hs
  have hc : parseAddrCore addr.data = none := (parseAddr_none_iff addr).mp hp
  simp [Dial, hc]

/-- C9 witness: the amended theorem applied at the malformed address
`"a@b@c"` with all collaborator calls succeeding. -/
theorem dial_parses_after_agent_open_witness :
    (DialWorld.mk true true true true).agentDialOk = true ∧
    ParseAddr "a@b@c" = none ∧
    Dial "a@b@c" false ⟨true, true, true, true⟩ =
      (none, [Ev.agentOpen, Ev.signersCall, Ev.parseAddrCall, Ev.agentClose]) :=
  ⟨rfl, by decide,
   dial_parses_after_agent_open "a@b@c" false ⟨true, true, true, true⟩
     rfl rfl (by decide)⟩

/-! ## Helper lemmas about command execution -/

/-- The three execution modes share one skeleton; in this embedding the
bodies of `CombinedOutput` and `Output` are definitionally the same
function. -/
theorem combinedOutput_eq_output : SSHConn.CombinedOutput = SSHConn.Output := rfl

/-- Likewise `Run` and `Output` share the skeleton. -/
theorem run_eq_output : SSHConn.Run = SSHConn.Output := rfl

/-- Every event the environment loop emits is a `setenv` event. -/
theorem setenvLoop_mem (w : ExecWorld) (envs : List (String × String)) :
    ∀ e ∈ (setenvLoop w envs).2, ∃ k v, e = Ev.setenv k v := by
  induction envs with
  | nil => intro e he; simp [setenvLoop] at he
  | cons kv rest ih =>
    obtain ⟨k, v⟩ := kv
    intro e he
    by_cases hk : w.setenvOk k
    · simp only [setenvLoop, if_pos hk, List.mem_cons] at he
      rcases he with he | he
      · exact ⟨k, v, he⟩
      · exact ih e he
    · simp only [setenvLoop, if_neg hk, List.mem_cons, List.not_mem_nil,
        or_false] at he
      exact ⟨k, v, he⟩

/-- The environment loop emits no event other than `setenv`s. -/
theorem setenvLoop_count_eq_zero (w : ExecWorld)
    (envs : List (String × String)) (e : Ev)
    (he : ∀ k v, e ≠ Ev.setenv k v) : (setenvLoop w envs).2.count e = 0 := by
  rw [List.count_eq_zero]
  intro hm
  rcases setenvLoop_mem w envs e hm with ⟨k, v, rfl⟩
  exact he k v rfl

/-- When every key is accepted, the environment loop succeeds and applies
each pair in order. -/
theorem setenvLoop_all_ok (w : ExecWorld) (envs : List (String × String))
    (h : ∀ kv ∈ envs, w.setenvOk kv.1 = true) :
    setenvLoop w envs = (none, envs.map fun kv => Ev.setenv kv.1 kv.2) := by
  induction envs with
  | nil => rfl
  | cons kv rest ih =>
    obtain ⟨k, v⟩ := kv
    have hk : w.setenvOk k = true := h (k, v) (List.mem_cons_self _ _)
    have hrest := ih fun kv hm => h kv (List.mem_cons_of_mem _ hm)
    simp [setenvLoop, hk, hrest]

/-- The first rejected key aborts the environment loop, after the calls
for the earlier keys and the failing call itself. -/
theorem setenvLoop_first_fail (w : ExecWorld) (m1 : List (String × String))
    (k v : String) (m2 : List (String × String))
    (h1 : ∀ kv ∈ m1, w.setenvOk kv.1 = true) (hk : w.setenvOk k = false) :
    setenvLoop w (m1 ++ (k, v) :: m2) =
      (some k, (m1.map fun kv => Ev.setenv kv.1 kv.2) ++ [Ev.setenv k v]) := by
  induction m1 with
  | nil => simp [setenvLoop, hk]
  | cons kv rest ih =>
    obtain ⟨k', v'⟩ := kv
    have hk' : w.setenvOk k' = true := h1 (k', v') (List.mem_cons_self _ _)
    have hrest := ih fun kv hm => h1 kv (List.mem_cons_of_mem _ hm)
    simp [setenvLoop, hk', hrest]

/-! ## Claims about command execution -/

/-- C2: in every `Output`, `CombinedOutput` or `Run` execution, channel
opens and channel closes balance: whenever the channel (ssh session) was
successfully opened it is released before the operation returns, on the
success path and on the forwarding-failure, environment-failure and
command-failure paths alike. -/
theorem exec_releases_channel (s : SSHConn) (cmd : String) (w : ExecWorld) :
    (s.Output cmd w).2.count Ev.chanOpen =
      (s.Output cmd w).2.count Ev.chanClose ∧
    (s.CombinedOutput cmd w).2.count Ev.chanOpen =
      (s.CombinedOutput cmd w).2.count Ev.chanClose ∧
    (s.Run cmd w).2.count Ev.chanOpen =
      (s.Run cmd w).2.count Ev.chanClose := by
  have key : (s.Output cmd w).2.count Ev.chanOpen =
      (s.Output cmd w).2.count Ev.chanClose := by
    have ho := setenvLoop_count_eq_zero w s.envs Ev.chanOpen
      fun k v h => Ev.noConfusion h
    have hc := setenvLoop_count_eq_zero w s.envs Ev.chanClose
      fun k v h => Ev.noConfusion h
    rcases hs : setenvLoop w s.envs with ⟨r, tr2⟩
    rw [hs] at ho hc
    simp only [Prod.snd] at ho hc
    cases hcl : s.clientClosed <;> cases hns : w.newSessionOk <;>
      cases hfa : s.forwardAgent <;> cases hfr : w.forwardReqOk <;> cases r <;>
      simp [SSHConn.Output, newSession, SSHConn.requestAgentForwarding, hs,
        hcl, hns, hfa, hfr, List.count_append, List.count_cons, ho, hc]
  exact ⟨key, by rw [combinedOutput_eq_output]; exact key,
    by rw [run_eq_output]; exact key⟩

/-- C8: after `Close` has been called on a session, every subsequent
`Output`, `CombinedOutput` or `Run` returns the channel-open error (the
closed transport refuses new channels), rather than crashing — the
embedding is a total function, so every such call terminates with an
error result. -/
theorem exec_after_close_fails (s : SSHConn) (cmd : String) (w : ExecWorld) :
    ((s.Close.1).Output cmd w).1 = ExecResult.chanFail ∧
    ((s.Close.1).CombinedOutput cmd w).1 = ExecResult.chanFail ∧
    ((s.Close.1).Run cmd w).1 = ExecResult.chanFail := by
  have key : ∀ s' : SSHConn, s'.clientClosed = true →
      (s'.Output cmd w).1 = ExecResult.chanFail := by
    intro s' h
    simp [SSHConn.Output, newSession, h]
  exact ⟨key _ rfl, by rw [combinedOutput_eq_output]; exact key _ rfl,
    by rw [run_eq_output]; exact key _ rfl⟩

/-- C6: after `SetEnvs m`, every subsequent execution in any of the three
modes applies every key/value pair of `m` to its channel, in order, before
running the command; and if some key is the first one `Setenv` rejects,
the execution aborts with `envFail` naming that key, the command is never
run, and the channel is still released. -/
theorem setEnvs_applied_before_run (s : SSHConn) (m : List (String × String))
    (cmd : String) (w : ExecWorld)
    (hopen : s.clientClosed = false) (hns : w.newSessionOk = true)
    (hfwd : s.forwardAgent = false ∨ w.forwardReqOk = true) :
    ((∀ kv ∈ m, w.setenvOk kv.1 = true) →
      ∀ mo : Mode, (execOf mo (s.SetEnvs m) cmd w).2 =
        Ev.chanOpen :: ((if s.forwardAgent then [Ev.forwardReq] else []) ++
          ((m.map fun kv => Ev.setenv kv.1 kv.2) ++
            [Ev.runCmd cmd, Ev.chanClose]))) ∧
    (∀ m1 k v m2, m = m1 ++ (k, v) :: m2 →
      (∀ kv ∈ m1, w.setenvOk kv.1 = true) → w.setenvOk k = false →
      ∀ mo : Mode, execOf mo (s.SetEnvs m) cmd w =
        (ExecResult.envFail k,
         Ev.chanOpen :: ((if s.forwardAgent then [Ev.forwardReq] else []) ++
           ((m1.map fun kv => Ev.setenv kv.1 kv.2) ++
             [Ev.setenv k v, Ev.chanClose])))) := by
  have h1 : (s.SetEnvs m).clientClosed = false := hopen
  have hreq : (s.SetEnvs m).requestAgentForwarding w =
      (true, if s.forwardAgent then [Ev.forwardReq] else []) := by
    cases hfa : s.forwardAgent with
    | false => simp [SSHConn.requestAgentForwarding, SSHConn.SetEnvs, hfa]
    | true =>
      rcases hfwd with hf | hf
      · rw [hfa] at hf; exact absurd hf (by decide)
      · simp [SSHConn.requestAgentForwarding, SSHConn.SetEnvs, hfa, hf]
  constructor
  · intro hall mo
    have hloop : setenvLoop w (s.SetEnvs m).envs =
        (none, m.map fun kv => Ev.setenv kv.1 kv.2) :=
      setenvLoop_all_ok w m hall
    cases mo <;>
      simp [execOf, combinedOutput_eq_output, run_eq_output, SSHConn.Output,
        newSession, h1, hns, hreq, hloop]
  · intro m1 k v m2 hm hall hk mo
    have hloop : setenvLoop w (s.SetEnvs m).envs =
        (some k, (m1.map fun kv => Ev.setenv kv.1 kv.2) ++ [Ev.setenv k v]) := by
      have : setenvLoop w m =
          (some k, (m1.map fun kv => Ev.setenv kv.1 kv.2) ++ [Ev.setenv k v]) := by
        rw [hm]
        exact setenvLoop_first_fail w m1 k v m2 hall hk
      exact this
    cases mo <;>
      simp [execOf, combinedOutput_eq_output, run_eq_output, SSHConn.Output,
        newSession, h1, hns, hreq, hloop]

/-- C6 witness: a one-entry environment applied (and traced before the
command) on a freshly-dialed non-forwarding session with an accepting
world, in `Run` mode. -/
theorem setEnvs_applied_before_run_witness :
    (SSHConn.mk false false false []).clientClosed = false ∧
    (ExecWorld.mk true true (fun _ => true) true).newSessionOk = true ∧
    (execOf Mode.run ((SSHConn.mk false false false []).SetEnvs [("A", "1")])
        "c" (ExecWorld.mk true true (fun _ => true) true)).2 =
      [Ev.chanOpen, Ev.setenv "A" "1", Ev.runCmd "c", Ev.chanClose] :=
  ⟨rfl, rfl,
   (setEnvs_applied_before_run ⟨false, false, false, []⟩ [("A", "1")] "c"
       ⟨true, true, fun _ => true, true⟩ rfl rfl (Or.inl rfl)).1
     (fun _ _ => rfl) Mode.run⟩

/-- No execution mode issues a forwarding request when the session was
dialed with `forwardAgent` false. -/
theorem execOf_no_forwardReq (mo : Mode) (s : SSHConn) (cmd : String)
    (w : ExecWorld) (h : s.forwardAgent = false) :
    (execOf mo s cmd w).2.count Ev.forwardReq = 0 := by
  have hf := setenvLoop_count_eq_zero w s.envs Ev.forwardReq
    fun k v he => Ev.noConfusion he
  rcases hs : setenvLoop w s.envs with ⟨r, tr2⟩
  rw [hs] at hf
  simp only [Prod.snd] at hf
  cases mo <;> cases hcl : s.clientClosed <;> cases hn : w.newSessionOk <;>
    cases r <;>
    simp [execOf, combinedOutput_eq_output, run_eq_output, SSHConn.Output,
      newSession, SSHConn.requestAgentForwarding, h, hcl, hn, hs,
      List.count_append, List.count_cons, hf]

/-- C7: on a session dialed with `forwardAgent` false, the per-command
forwarding step succeeds immediately without contacting the agent
collaborator, and across any number of `Output`/`CombinedOutput`/`Run`
executions no agent-forwarding request is ever issued. -/
theorem no_forward_request_when_disabled (s : SSHConn)
    (h : s.forwardAgent = false) :
    (∀ w, s.requestAgentForwarding w = (true, [])) ∧
    ∀ script, (runScript s script).count Ev.forwardReq = 0 := by
  refine ⟨fun w => by simp [SSHConn.requestAgentForwarding, h], ?_⟩
  intro script
  induction script with
  | nil => rfl
  | cons step rest ih =>
    obtain ⟨mo, cmd, w⟩ := step
    simp [runScript, List.count_append, ih, execOf_no_forwardReq mo s cmd w h]

/-- C7 witness: a disabled-forwarding session runs an `Output`, a
`CombinedOutput` and a `Run` with zero forwarding requests recorded. -/
theorem no_forward_request_when_disabled_witness :
    (SSHConn.mk false false false []).forwardAgent = false ∧
    (runScript (SSHConn.mk false false false [])
        [(Mode.output, "a", ExecWorld.mk true true (fun _ => true) true),
         (Mode.combined, "b", ExecWorld.mk true true (fun _ => true) true),
         (Mode.run, "c", ExecWorld.mk true true (fun _ => true) true)]).count
      Ev.forwardReq = 0 :=
  ⟨rfl,
   (no_forward_request_when_disabled ⟨false, false, false, []⟩ rfl).2 _⟩

end Sshwrapper


